import Mathlib

/-!
Shallow embedding of the audio-visualizer core (beat detection, band
smoothing, magnitude compression, gradient sampling, particle/leaf
simulation, surface resizing) with proofs of the specification's
testable properties.  Numbers are modelled as exact rationals (reals
for the transcendental compression curves); JavaScript's `Math.round`
is modelled as round-half-up.
-/

/-- JavaScript `Math.round`: rounds half-way cases toward positive infinity. -/
def jsRound (q : ℚ) : ℤ := ⌊q + 1/2⌋

/-! ### Beat Detector (source: the `BeatDetector` class) -/

/-- `ENERGY_HISTORY_SIZE` from the source: the rolling RMS history length. -/
def ENERGY_HISTORY_SIZE : ℕ := 120

/-- `getMedian` from the source: sort a copy ascending, take the middle
element (odd length) or the mean of the two middle elements (even length).
The JS `Array.sort` with a numeric comparator is embedded as a stable
insertion sort; out-of-range indexing (possible only for an empty array,
which never occurs: the history always has 120 entries) defaults to 0. -/
def getMedian (arr : List ℚ) : ℚ :=
  let sorted := List.insertionSort (fun a b => a ≤ b) arr
  let mid := sorted.length / 2
  if sorted.length % 2 ≠ 0 then sorted.getD mid 0
  else (sorted.getD (mid - 1) 0 + sorted.getD mid 0) / 2

/-- `getMAD` from the source: median of absolute deviations from `median`. -/
def getMAD (arr : List ℚ) (median : ℚ) : ℚ :=
  getMedian (arr.map (fun val => |val - median|))

/-- The `BeatDetector` instance state: rolling RMS history and envelope. -/
structure BeatDetector where
  energyHistory : List ℚ
  envelope : ℚ
deriving DecidableEq

/-- The freshly constructed detector: 120 zeros, zero envelope. -/
def beatInit : BeatDetector :=
  { energyHistory := List.replicate ENERGY_HISTORY_SIZE 0, envelope := 0 }

/-- The settings record taken by `BeatDetector.update`. -/
structure BeatSettings where
  enabled : Bool
  attack : ℚ
  decay : ℚ
  threshold : ℚ
deriving DecidableEq

/-- The adaptive threshold computed inside `update`:
`median + settings.threshold * mad`, over the history as it stands. -/
def BeatDetector.adaptiveThreshold (self : BeatDetector) (settings : BeatSettings) : ℚ :=
  let median := getMedian self.energyHistory
  let mad := getMAD self.energyHistory median
  median + settings.threshold * mad

/-- History push from `update`: append the sample, drop the oldest
entry once the length exceeds `ENERGY_HISTORY_SIZE`. -/
def pushHistory (history : List ℚ) (rms : ℚ) : List ℚ :=
  let h := history ++ [rms]
  if ENERGY_HISTORY_SIZE < h.length then h.tail else h

/-- `BeatDetector.update` from the source.  Returns the successor state
together with the `{isBeat, envelope}` result.  `settings.decay || 0.1`
is modelled by replacing a zero decay with 0.1 (0 is the only falsy
rational). -/
def BeatDetector.update (self : BeatDetector) (rms deltaTime : ℚ)
    (settings : BeatSettings) : BeatDetector × Bool × ℚ :=
  if !settings.enabled then (self, false, 0)
  else
    let threshold := self.adaptiveThreshold settings
    let isBeat : Bool := decide (threshold < rms ∧ (0.01 : ℚ) < rms)
    let history := pushHistory self.energyHistory rms
    let envelope :=
      if isBeat then (1 : ℚ)
      else if 0 < self.envelope then
        let decayAmount := (1 / (if settings.decay = 0 then (0.1 : ℚ) else settings.decay)) * deltaTime
        max 0 (self.envelope - decayAmount)
      else self.envelope
    ({ energyHistory := history, envelope := envelope }, isBeat, envelope)

/-- Run the detector over a list of `(rms, deltaTime, settings)` inputs,
collecting the returned `(isBeat, envelope)` pairs in order. -/
def runDetector (self : BeatDetector) : List (ℚ × ℚ × BeatSettings) → List (Bool × ℚ)
  | [] => []
  | (rms, deltaTime, settings) :: rest =>
    let r := self.update rms deltaTime settings
    r.2 :: runDetector r.1 rest

/-! ### Feature Extractor / Smoother (source: the per-band loop in `renderLoop`
and `compressMagnitude` in `CanvasVisualizer.tsx`) -/

/-- One band's persisted signal: `state.barMags[i]`, `state.barVelocities[i]`
and `state.peakHeights[i]`. -/
structure BandState where
  mag : ℚ
  vel : ℚ
  peak : ℚ
deriving DecidableEq

/-- One frame of the per-band loop in `renderLoop` (lines 1197-1215):
EMA toward the compressed magnitude, optional spring-damper physics
(only when the spring is enabled and the active mode is `bars`), a
clamp of the band value at 0, and optional peak-hold tracking.
`compressed` is the already-compressed raw magnitude (in the source,
`compressMagnitude(frequencyData[dataIndex], settings.compression)`). -/
def bandFrame (emaSmoothing : ℚ) (springEnabled modeIsBars : Bool) (k damp : ℚ)
    (peakHold : Bool) (peakDecay : ℚ) (compressed : ℚ) (b : BandState) : BandState :=
  let targetMag := emaSmoothing * compressed + (1 - emaSmoothing) * b.mag
  let stepped : BandState :=
    if springEnabled && modeIsBars then
      let springF := (targetMag - b.mag) * k
      let vel1 := (b.vel + springF) * damp
      { b with mag := b.mag + vel1, vel := vel1 }
    else
      { b with mag := targetMag }
  let clamped := if stepped.mag < 0 then { stepped with mag := 0 } else stepped
  if peakHold then { clamped with peak := max (clamped.peak - peakDecay) clamped.mag }
  else clamped

/-- Compression mode tag: `'none' | 'log' | 'pow'`. -/
inductive CompressionMode where
  | none
  | log
  | pow
deriving DecidableEq

/-- The `settings.compression` record. -/
structure Compression where
  mode : CompressionMode
  k : ℝ
  gamma : ℝ

/-- `compressMagnitude` from the source: normalize the byte magnitude to
[0,1], apply the selected compression curve (`Math.log10` is `logb 10`,
`Math.pow` with a real exponent is `rpow`), and clamp to [0,1]. -/
noncomputable def compressMagnitude (mag : ℝ) (compression : Compression) : ℝ :=
  let normalizedMag := mag / 255
  let compressedMag :=
    match compression.mode with
    | CompressionMode.log =>
      Real.logb 10 (1 + compression.k * normalizedMag) / Real.logb 10 (1 + compression.k)
    | CompressionMode.pow => normalizedMag ^ compression.gamma
    | CompressionMode.none => normalizedMag
  max 0 (min 1 compressedMag)

/-! ### Color/Gradient Resolver (source: `utils/colors.ts`) -/

/-- Value of one hexadecimal digit, matching the `[a-f\d]` character
class of the source's regex together with its `i` (case-insensitive) flag. -/
def hexDigitVal (c : Char) : Option ℕ :=
  if '0' ≤ c ∧ c ≤ '9' then some (c.toNat - '0'.toNat)
  else if 'a' ≤ c ∧ c ≤ 'f' then some (c.toNat - 'a'.toNat + 10)
  else if 'A' ≤ c ∧ c ≤ 'F' then some (c.toNat - 'A'.toNat + 10)
  else none

/-- Value of a two-hex-digit group, as captured by `([a-f\d]{2})`. -/
def hexPair (c1 c2 : Char) : Option ℕ := do
  let hi ← hexDigitVal c1
  let lo ← hexDigitVal c2
  pure (16 * hi + lo)

/-- `hexToRgb` from the source: match `^#?([a-f\d]{2})([a-f\d]{2})([a-f\d]{2})$`
case-insensitively and parse the three channel groups. -/
def hexToRgb (hex : String) : Option (ℕ × ℕ × ℕ) :=
  let cs := hex.toList
  let cs := if cs.head? = some '#' then cs.tail else cs
  match cs with
  | [c1, c2, c3, c4, c5, c6] => do
    let r ← hexPair c1 c2
    let g ← hexPair c3 c4
    let b ← hexPair c5 c6
    pure (r, g, b)
  | _ => none

/-- A color stop: a color string and a position. -/
structure ColorStop where
  color : String
  position : ℚ
deriving DecidableEq

/-- `[...stops].sort((a, b) => a.position - b.position)`: JavaScript's
`Array.sort` is stable, embedded as a stable insertion sort by position. -/
def sortStops (stops : List ColorStop) : List ColorStop :=
  List.insertionSort (fun a b => a.position ≤ b.position) stops

/-- The fallback color of `getColorFromStops`. -/
def fallbackWhite : String := "rgb(255,255,255)"

/-- The bracketing-stop search loop of `getColorFromStops`: scan adjacent
sorted pairs, return the first pair whose positions enclose `position`;
the defaults (first and last sorted stop) stand when no pair matches. -/
def findBracket (pairs : List (ColorStop × ColorStop)) (dflt : ColorStop × ColorStop)
    (position : ℚ) : ColorStop × ColorStop :=
  match pairs with
  | [] => dflt
  | (a, b) :: rest =>
    if a.position ≤ position ∧ position ≤ b.position then (a, b)
    else findBracket rest dflt position

/-- `getColorFromStops` from the source: degenerate fallbacks for zero or
one stop, endpoint clamping against the sorted stops, and channel-wise
linear interpolation (with `Math.round`) between the bracketing stops,
guarding the zero-range division. -/
def getColorFromStops (stops : List ColorStop) (position : ℚ) : String :=
  if stops.length = 0 then fallbackWhite
  else if stops.length = 1 then (stops.headD ⟨fallbackWhite, 0⟩).color
  else
    let sortedStops := sortStops stops
    let firstStop := sortedStops.headD ⟨fallbackWhite, 0⟩
    let lastStop := sortedStops.getLastD ⟨fallbackWhite, 0⟩
    if position ≤ firstStop.position then firstStop.color
    else if lastStop.position ≤ position then lastStop.color
    else
      let bracket := findBracket (sortedStops.zip sortedStops.tail) (firstStop, lastStop) position
      let startStop := bracket.1
      let endStop := bracket.2
      match hexToRgb startStop.color, hexToRgb endStop.color with
      | some startRgb, some endRgb =>
        let range := endStop.position - startStop.position
        let relativePos := if range = 0 then 0 else (position - startStop.position) / range
        let r := jsRound ((startRgb.1 : ℚ) + ((endRgb.1 : ℚ) - (startRgb.1 : ℚ)) * relativePos)
        let g := jsRound ((startRgb.2.1 : ℚ) + ((endRgb.2.1 : ℚ) - (startRgb.2.1 : ℚ)) * relativePos)
        let b := jsRound ((startRgb.2.2 : ℚ) + ((endRgb.2.2 : ℚ) - (startRgb.2.2 : ℚ)) * relativePos)
        "rgb(" ++ toString r ++ "," ++ toString g ++ "," ++ toString b ++ ")"
      | _, _ => fallbackWhite

/-! ### Particle burst (source: `drawParticleBurst`) -/

/-- `'circle' | 'square' | 'triangle'`. -/
inductive ParticleShape where
  | circle
  | square
  | triangle
deriving DecidableEq

/-- One particle of the burst system. -/
structure Particle where
  x : ℚ
  y : ℚ
  vx : ℚ
  vy : ℚ
  life : ℚ
  size : ℚ
  shape : ParticleShape
  color : String
deriving DecidableEq

/-- The randomized ingredients of one spawned particle.  In the source the
velocity is `(cos angle, sin angle) * speed` for a random angle and speed;
the trigonometric draw is abstracted into the request's `vx`/`vy`. -/
structure SpawnReq where
  vx : ℚ
  vy : ℚ
  size : ℚ
  shape : ParticleShape
  color : String

/-- The particle literal pushed by `spawnParticles`: canvas center, full life. -/
def mkParticle (w h : ℚ) (req : SpawnReq) : Particle :=
  { x := w / 2, y := h / 2, vx := req.vx, vy := req.vy,
    life := 1, size := req.size, shape := req.shape, color := req.color }

/-- The spawning phase of `drawParticleBurst`: each push is guarded by
`state.particles.length >= count` (spawning stops at the cap). -/
def spawnPhase (count : ℕ) (w h : ℚ) (ps : List Particle) (reqs : List SpawnReq) :
    List Particle :=
  reqs.foldl (fun acc req => if count ≤ acc.length then acc else acc ++ [mkParticle w h req]) ps

/-- The per-particle integration of `drawParticleBurst`: move by the
velocity, apply gravity to `vy`, decay the life multiplicatively. -/
def particleStep (decay : ℚ) (p : Particle) : Particle :=
  { p with x := p.x + p.vx, y := p.y + p.vy, vy := p.vy + 0.02, life := p.life * decay }

/-- One frame of the particle system inside `drawParticleBurst`: spawn
(threshold-gated bursts, given here as the request list), integrate every
particle, then drop the dead ones (`life > 0.01` filter). -/
def particleFrame (count : ℕ) (decay w h : ℚ) (ps : List Particle)
    (reqs : List SpawnReq) : List Particle :=
  ((spawnPhase count w h ps reqs).map (particleStep decay)).filter
    (fun p => decide ((0.01 : ℚ) < p.life))

/-! ### Fractal bloom leaves (source: `drawFractalBloom`) -/

/-- `'growing' | 'falling'`. -/
inductive LeafPhase where
  | growing
  | falling
deriving DecidableEq

/-- One leaf of the fractal bloom. -/
structure Leaf where
  x : ℚ
  y : ℚ
  vx : ℚ
  vy : ℚ
  age : ℚ
  maxAge : ℚ
  size : ℚ
  phase : LeafPhase
  color : String
deriving DecidableEq

/-- The hard leaf-population cap of `drawFractalBloom`
(`state.leaves.length < 250` guards every spawn). -/
def LEAF_CAP : ℕ := 250

/-- The aging-color of a growing leaf: green to yellow for the first 60%
of the life, yellow to brown afterwards (`hsl` strings in the source). -/
def leafColor (lifeFrac : ℚ) : String :=
  if lifeFrac < 0.6 then
    let hue := 120 - 60 * (lifeFrac / 0.6)
    "hsl(" ++ toString hue ++ ", 80%, 50%)"
  else
    let brownFrac := (lifeFrac - 0.6) / 0.4
    let hue := 60 - 30 * brownFrac
    let saturat := 80 - 20 * brownFrac
    let lightness := 50 - 20 * brownFrac
    "hsl(" ++ toString hue ++ ", " ++ toString saturat ++ "%, " ++ toString lightness ++ "%)"

/-- The per-leaf update of `drawFractalBloom`: a falling leaf moves
ballistically and is removed (`none`) once it passes the soil level; a
growing leaf ages, recolors, and starts falling past its maximum age. -/
def leafUpdate (soilLevel : ℚ) (leaf : Leaf) : Option Leaf :=
  match leaf.phase with
  | LeafPhase.falling =>
    let moved := { leaf with y := leaf.y + leaf.vy, x := leaf.x + leaf.vx, vy := leaf.vy + 0.05 }
    if soilLevel < moved.y then none else some moved
  | LeafPhase.growing =>
    let aged := { leaf with age := leaf.age + 1 }
    let aged := { aged with color := leafColor (aged.age / aged.maxAge) }
    if aged.maxAge < aged.age then some { aged with phase := LeafPhase.falling } else some aged

/-- The leaf literal pushed during branch drawing: branch-tip position,
gentle random wind `vx`, `vy = 0.1`, age 0, random `maxAge` and size,
growing phase, initial green color. -/
def mkLeaf (x y vx maxAge size : ℚ) : Leaf :=
  { x := x, y := y, vx := vx, vy := 0.1, age := 0, maxAge := maxAge,
    size := size, phase := LeafPhase.growing, color := "hsl(120, 80%, 50%)" }

/-- One frame of the leaf system inside `drawFractalBloom`: update (and
cull) every existing leaf, then push the probabilistically spawned leaves
of this frame's branch drawing, each push guarded by the 250 cap. -/
def leafFrame (soilLevel : ℚ) (leaves : List Leaf) (spawns : List Leaf) : List Leaf :=
  let updated := leaves.filterMap (leafUpdate soilLevel)
  spawns.foldl (fun acc leaf => if LEAF_CAP ≤ acc.length then acc else acc ++ [leaf]) updated

/-! ### Surface/Resize Manager (source: `handleResize` and
`getRecordingDimensions` in `CanvasVisualizer.tsx`) -/

/-- `MAX_CANVAS_WIDTH` from the source. -/
def MAX_CANVAS_WIDTH : ℚ := 1920

/-- `FLUID_FLOW_RESOLUTION_SCALE` from the source. -/
def FLUID_FLOW_RESOLUTION_SCALE : ℚ := 1 / 4

/-- The recording settings after the string parsing of
`getRecordingDimensions` (`parseInt(resolution.replace('p',''))` and the
two parts of the `W:H` aspect string). -/
structure RecordingSettings where
  resolutionHeight : ℕ
  aspectW : ℚ
  aspectH : ℚ

/-- `getRecordingDimensions` from the source: height is the resolution
number, width is `Math.round(height * aspectW / aspectH)`. -/
def getRecordingDimensions (s : RecordingSettings) : ℚ × ℚ :=
  let height : ℚ := (s.resolutionHeight : ℚ)
  let rat := s.aspectW / s.aspectH
  ((jsRound (height * rat) : ℚ), height)

/-- The dimensions of the visible canvas and the offscreen working canvas. -/
structure SurfaceState where
  canvasW : ℚ
  canvasH : ℚ
  offW : ℚ
  offH : ℚ
deriving DecidableEq

/-- The inputs of one `handleResize` invocation. -/
structure ResizeInput where
  isRecording : Bool
  isRecordingPending : Bool
  containerW : ℚ
  containerH : ℚ
  devicePixelRat : ℚ
  fluidFlowMode : Bool
  recording : RecordingSettings

/-- The tail of `handleResize`: the offscreen canvas copies the visible
canvas dimensions, then the fluid-flow mode shrinks it by the resolution
scale. -/
def resizeOffscreen (fluidFlowMode : Bool) (s : SurfaceState) : SurfaceState :=
  let s := { s with offW := s.canvasW, offH := s.canvasH }
  if fluidFlowMode then
    { s with offW := s.canvasW * FLUID_FLOW_RESOLUTION_SCALE,
             offH := s.canvasH * FLUID_FLOW_RESOLUTION_SCALE }
  else s

/-- `handleResize` from the source: recording uses the fixed recording
dimensions; live preview returns early (state untouched) when the
observed container width or height is zero, otherwise scales by the
device pixel ratio (`|| 1`), caps the width at `MAX_CANVAS_WIDTH`
preserving aspect, and rounds.  The early return also skips the
offscreen-canvas resize. -/
def handleResize (s : SurfaceState) (inp : ResizeInput) : SurfaceState :=
  if inp.isRecording || inp.isRecordingPending then
    let dims := getRecordingDimensions inp.recording
    resizeOffscreen inp.fluidFlowMode { s with canvasW := dims.1, canvasH := dims.2 }
  else if inp.containerW = 0 ∨ inp.containerH = 0 then s
  else
    let dpr := if inp.devicePixelRat = 0 then 1 else inp.devicePixelRat
    let newWidth := inp.containerW * dpr
    let newHeight := inp.containerH * dpr
    let capped : ℚ × ℚ :=
      if MAX_CANVAS_WIDTH < newWidth then
        let shrink := MAX_CANVAS_WIDTH / newWidth
        (MAX_CANVAS_WIDTH, newHeight * shrink)
      else (newWidth, newHeight)
    resizeOffscreen inp.fluidFlowMode
      { s with canvasW := (jsRound capped.1 : ℚ), canvasH := (jsRound capped.2 : ℚ) }

/-! ### Theorems -/

/-- C8: with detection disabled, `update` returns `{isBeat: false, envelope: 0}`
and leaves the detector state — in particular the loudness history —
completely unchanged. -/
theorem beat_disabled_noop (det : BeatDetector) (rms deltaTime : ℚ)
    (settings : BeatSettings) (hdis : settings.enabled = false) :
    det.update rms deltaTime settings = (det, false, 0) := by
  simp [BeatDetector.update, hdis]

theorem beat_disabled_noop_witness :
    (BeatSettings.mk false (1/100) (2/10) (13/10)).enabled = false
    ∧ beatInit.update 5 (1/60) (BeatSettings.mk false (1/100) (2/10) (13/10))
        = (beatInit, false, 0) :=
  ⟨rfl, beat_disabled_noop beatInit 5 (1/60) _ rfl⟩

/-- C10: with detection enabled, the beat decision is made against the
adaptive threshold of the history as it stands before the incoming sample,
and the sample is appended to the history only afterwards — so a sample
never contributes to its own threshold. -/
theorem beat_threshold_before_push (det : BeatDetector) (rms deltaTime : ℚ)
    (settings : BeatSettings) (hen : settings.enabled = true) :
    (det.update rms deltaTime settings).2.1
        = decide (det.adaptiveThreshold settings < rms ∧ (0.01 : ℚ) < rms)
    ∧ (det.update rms deltaTime settings).1.energyHistory
        = pushHistory det.energyHistory rms := by
  simp [BeatDetector.update, hen]

theorem beat_threshold_before_push_witness :
    (BeatSettings.mk true (1/100) (2/10) (13/10)).enabled = true
    ∧ ((beatInit.update 5 (1/60) (BeatSettings.mk true (1/100) (2/10) (13/10))).2.1
        = decide (beatInit.adaptiveThreshold (BeatSettings.mk true (1/100) (2/10) (13/10)) < 5
            ∧ (0.01 : ℚ) < 5)
      ∧ (beatInit.update 5 (1/60) (BeatSettings.mk true (1/100) (2/10) (13/10))).1.energyHistory
        = pushHistory beatInit.energyHistory 5) :=
  ⟨rfl, beat_threshold_before_push beatInit 5 (1/60) _ rfl⟩

/-- C9: a live-preview resize request whose observed container width or
height is zero is ignored: both the visible and the offscreen surface
dimensions stay exactly as they were. -/
theorem resize_zero_ignored (s : SurfaceState) (inp : ResizeInput)
    (hrec : inp.isRecording = false) (hpend : inp.isRecordingPending = false)
    (hzero : inp.containerW = 0 ∨ inp.containerH = 0) :
    handleResize s inp = s := by
  simp [handleResize, hrec, hpend, hzero]

theorem resize_zero_ignored_witness :
    (ResizeInput.mk false false 0 300 2 false (RecordingSettings.mk 720 16 9)).isRecording = false
    ∧ (ResizeInput.mk false false 0 300 2 false (RecordingSettings.mk 720 16 9)).isRecordingPending = false
    ∧ ((ResizeInput.mk false false 0 300 2 false (RecordingSettings.mk 720 16 9)).containerW = 0
        ∨ (ResizeInput.mk false false 0 300 2 false (RecordingSettings.mk 720 16 9)).containerH = 0)
    ∧ handleResize (SurfaceState.mk 800 600 800 600)
        (ResizeInput.mk false false 0 300 2 false (RecordingSettings.mk 720 16 9))
        = SurfaceState.mk 800 600 800 600 :=
  ⟨rfl, rfl, Or.inl rfl,
    resize_zero_ignored (SurfaceState.mk 800 600 800 600) _ rfl rfl (Or.inl rfl)⟩

/-- C4: with peak-hold enabled, every band frame updates the stored peak as
`peak = max(peak - decayRate, currentValue)`, hence the updated peak is
at least the band's current value. -/
theorem peak_hold_invariant (emaSmoothing : ℚ) (springEnabled modeIsBars : Bool)
    (k damp peakDecay compressed : ℚ) (b : BandState) :
    (bandFrame emaSmoothing springEnabled modeIsBars k damp true peakDecay compressed b).peak
      = max (b.peak - peakDecay)
          (bandFrame emaSmoothing springEnabled modeIsBars k damp true peakDecay compressed b).mag
    ∧ (bandFrame emaSmoothing springEnabled modeIsBars k damp true peakDecay compressed b).mag
      ≤ (bandFrame emaSmoothing springEnabled modeIsBars k damp true peakDecay compressed b).peak := by
  unfold bandFrame
  cases hs : springEnabled && modeIsBars <;> simp [hs] <;> split_ifs <;>
    simp [le_max_right]

/-- The spring-disabled EMA scenario of the spec: α = 1/2, band starting
at 0, constant compressed target 1, no spring, no peak hold. -/
def emaScenario : ℕ → BandState
  | 0 => BandState.mk 0 0 0
  | n + 1 => bandFrame (1/2) false false 0 0 false 0 1 (emaScenario n)

/-- C3: with spring physics disabled, the persisted band value follows the
exponential-moving-average rule `new = α·compressed + (1-α)·old` (the
final clamp at 0 never bites for non-negative inputs and α in [0,1]);
consequently the scenario α = 1/2, start 0, constant target 1 produces the
band values 1/2, 3/4, 7/8 over three frames. -/
theorem band_ema_update (emaSmoothing : ℚ) (modeIsBars : Bool)
    (k damp peakDecay compressed : ℚ) (peakHold : Bool) (b : BandState)
    (hema0 : 0 ≤ emaSmoothing) (hema1 : emaSmoothing ≤ 1)
    (hc : 0 ≤ compressed) (hm : 0 ≤ b.mag) :
    (bandFrame emaSmoothing false modeIsBars k damp peakHold peakDecay compressed b).mag
      = emaSmoothing * compressed + (1 - emaSmoothing) * b.mag
    ∧ ((emaScenario 1).mag = 1/2 ∧ (emaScenario 2).mag = 3/4 ∧ (emaScenario 3).mag = 7/8) := by
  constructor
  · have htarget : 0 ≤ emaSmoothing * compressed + (1 - emaSmoothing) * b.mag :=
      add_nonneg (mul_nonneg hema0 hc) (mul_nonneg (by linarith) hm)
    unfold bandFrame
    simp only [Bool.false_and, Bool.false_eq_true, if_neg (not_lt.mpr htarget), ite_false]
    split_ifs <;> simp
  · norm_num [emaScenario, bandFrame]

theorem band_ema_update_witness :
    (0 : ℚ) ≤ 1/2 ∧ (1/2 : ℚ) ≤ 1 ∧ (0 : ℚ) ≤ 1 ∧ (0 : ℚ) ≤ (BandState.mk 0 0 0).mag
    ∧ ((bandFrame (1/2) false false 0 0 false 0 1 (BandState.mk 0 0 0)).mag
        = (1/2 : ℚ) * 1 + (1 - 1/2) * (BandState.mk 0 0 0).mag
      ∧ ((emaScenario 1).mag = 1/2 ∧ (emaScenario 2).mag = 3/4 ∧ (emaScenario 3).mag = 7/8)) :=
  ⟨by norm_num, by norm_num, by norm_num, by norm_num,
    band_ema_update (1/2) false 0 0 0 1 false (BandState.mk 0 0 0)
      (by norm_num) (by norm_num) (by norm_num) (by norm_num)⟩

/-- A constant-zero list is already sorted, so the median's sort is the identity on it. -/
lemma insertionSort_replicate_zero (n : ℕ) :
    List.insertionSort (fun a b => a ≤ b) (List.replicate n (0 : ℚ)) = List.replicate n 0 :=
  List.Sorted.insertionSort_eq (List.pairwise_replicate.mpr (Or.inr le_rfl))

lemma getD_replicate_zero (n i : ℕ) : (List.replicate n (0 : ℚ)).getD i 0 = 0 := by
  simp [List.getD_eq_getElem?_getD, List.getElem?_replicate]
  split_ifs <;> rfl

lemma getMedian_replicate_zero (n : ℕ) : getMedian (List.replicate n (0 : ℚ)) = 0 := by
  simp only [getMedian, insertionSort_replicate_zero, getD_replicate_zero]
  split_ifs <;> norm_num

lemma getMAD_replicate_zero (n : ℕ) : getMAD (List.replicate n (0 : ℚ)) 0 = 0 := by
  unfold getMAD
  simp only [List.map_replicate, sub_zero, abs_zero]
  exact getMedian_replicate_zero n

lemma adaptiveThreshold_beatInit (settings : BeatSettings) :
    beatInit.adaptiveThreshold settings = 0 := by
  show getMedian (List.replicate 120 (0 : ℚ))
      + settings.threshold
        * getMAD (List.replicate 120 (0 : ℚ)) (getMedian (List.replicate 120 (0 : ℚ))) = 0
  rw [getMedian_replicate_zero, getMAD_replicate_zero]
  ring

lemma pushHistory_beatInit (rms : ℚ) :
    pushHistory beatInit.energyHistory rms = List.replicate 119 (0 : ℚ) ++ [rms] := by
  have h : beatInit.energyHistory = (0 : ℚ) :: List.replicate 119 0 := rfl
  unfold pushHistory
  rw [h]
  simp [ENERGY_HISTORY_SIZE]

/-- A warm-up update: feeding zero loudness to the freshly constructed
detector leaves it exactly in its initial state (and reports no beat). -/
lemma update_beatInit_zero (deltaTime : ℚ) (settings : BeatSettings)
    (hen : settings.enabled = true) :
    beatInit.update 0 deltaTime settings = (beatInit, false, 0) := by
  unfold BeatDetector.update
  rw [hen]
  have hth : beatInit.adaptiveThreshold settings = 0 := adaptiveThreshold_beatInit settings
  have hbeat : decide (beatInit.adaptiveThreshold settings < 0 ∧ (0.01 : ℚ) < 0) = false :=
    decide_eq_false (by rw [hth]; norm_num)
  have hpush : pushHistory beatInit.energyHistory 0 = beatInit.energyHistory := by
    rw [pushHistory_beatInit, ← List.replicate_succ']
    rfl
  have henv : beatInit.envelope = 0 := rfl
  simp [hbeat, hpush, henv]
  rfl

/-- The settings of the warm-up scenario: detection enabled, threshold
multiplier 1.3 (attack and decay values are not exercised by it). -/
def stC1 : BeatSettings := { enabled := true, attack := 1/100, decay := 1/5, threshold := 13/10 }

/-- The detector after `n` zero-loudness updates of the scenario. -/
def warmDetector : ℕ → BeatDetector
  | 0 => beatInit
  | n + 1 => ((warmDetector n).update 0 (1/60) stC1).1

lemma warmDetector_eq (n : ℕ) : warmDetector n = beatInit := by
  induction n with
  | zero => rfl
  | succ n ih => rw [warmDetector, ih, update_beatInit_zero _ stC1 rfl]

/-- The loud scenario sample: updating the freshly warmed detector with
loudness 5 signals a beat and snaps the envelope to 1. -/
lemma update_beatInit_five :
    beatInit.update 5 (1/60) stC1 = (⟨List.replicate 119 (0 : ℚ) ++ [5], 1⟩, true, 1) := by
  unfold BeatDetector.update
  have hen : stC1.enabled = true := rfl
  have hbeat : decide (beatInit.adaptiveThreshold stC1 < 5 ∧ (0.01 : ℚ) < 5) = true :=
    decide_eq_true (by rw [adaptiveThreshold_beatInit]; norm_num)
  simp only [hen, Bool.not_true, Bool.false_eq_true, if_false, hbeat, if_true,
    pushHistory_beatInit]

/-- C1: with detection enabled, `update` reports a beat exactly when the
loudness strictly exceeds both the adaptive threshold `median + multiplier·MAD`
of the rolling history and the fixed floor 0.01; and the scenario —
construction, 120 zero-loudness updates, then one update with loudness 5
and threshold multiplier 1.3 — yields `isBeat = true` and `envelope = 1`. -/
theorem beat_iff_threshold_and_floor (det : BeatDetector) (rms deltaTime : ℚ)
    (settings : BeatSettings) (hen : settings.enabled = true) :
    ((det.update rms deltaTime settings).2.1 = true
      ↔ (det.adaptiveThreshold settings < rms ∧ (0.01 : ℚ) < rms))
    ∧ ((warmDetector 120).update 5 (1/60) stC1).2.1 = true
    ∧ ((warmDetector 120).update 5 (1/60) stC1).2.2 = 1 := by
  refine ⟨?_, ?_, ?_⟩
  · simp [BeatDetector.update, hen]
  · rw [warmDetector_eq, update_beatInit_five]
  · rw [warmDetector_eq, update_beatInit_five]

theorem beat_iff_threshold_and_floor_witness :
    stC1.enabled = true
    ∧ (((beatInit.update 5 (1/60) stC1).2.1 = true
        ↔ (beatInit.adaptiveThreshold stC1 < 5 ∧ (0.01 : ℚ) < 5))
      ∧ ((warmDetector 120).update 5 (1/60) stC1).2.1 = true
      ∧ ((warmDetector 120).update 5 (1/60) stC1).2.2 = 1) :=
  ⟨rfl, beat_iff_threshold_and_floor beatInit 5 (1/60) stC1 rfl⟩

/-- Bounds for the envelope expression of `update`: a beat snaps to 1,
otherwise a positive envelope decays by a non-negative amount clamped at 0. -/
lemma envelope_expr_mem (env d : ℚ) (h0 : 0 ≤ env) (h1 : env ≤ 1) (hd : 0 ≤ d) (c : Bool) :
    0 ≤ (if c then (1 : ℚ) else if 0 < env then max 0 (env - d) else env)
    ∧ (if c then (1 : ℚ) else if 0 < env then max 0 (env - d) else env) ≤ 1 := by
  cases c
  · by_cases he : 0 < env
    · simp only [Bool.false_eq_true, if_false, if_pos he]
      exact ⟨le_max_left _ _, max_le zero_le_one (by linarith)⟩
    · simp only [Bool.false_eq_true, if_false, if_neg he]
      exact ⟨h0, h1⟩
  · simp

/-- One update keeps the envelope inside [0,1], provided the elapsed time
and the configured decay constant are non-negative. -/
lemma update_envelope_mem (det : BeatDetector) (rms deltaTime : ℚ) (settings : BeatSettings)
    (h0 : 0 ≤ det.envelope) (h1 : det.envelope ≤ 1)
    (hdt : 0 ≤ deltaTime) (hdec : 0 ≤ settings.decay) :
    (0 ≤ (det.update rms deltaTime settings).1.envelope
      ∧ (det.update rms deltaTime settings).1.envelope ≤ 1)
    ∧ (0 ≤ (det.update rms deltaTime settings).2.2
      ∧ (det.update rms deltaTime settings).2.2 ≤ 1) := by
  have hdpos : 0 < (if settings.decay = 0 then (0.1 : ℚ) else settings.decay) := by
    split_ifs with h
    · norm_num
    · exact lt_of_le_of_ne hdec (Ne.symm h)
  have hda : 0 ≤ (1 / (if settings.decay = 0 then (0.1 : ℚ) else settings.decay)) * deltaTime :=
    mul_nonneg (le_of_lt (one_div_pos.mpr hdpos)) hdt
  unfold BeatDetector.update
  cases hen : settings.enabled with
  | false =>
    exact ⟨⟨h0, h1⟩, le_refl 0, zero_le_one⟩
  | true =>
    have hkey := envelope_expr_mem det.envelope
      ((1 / (if settings.decay = 0 then (0.1 : ℚ) else settings.decay)) * deltaTime)
      h0 h1 hda (decide (det.adaptiveThreshold settings < rms ∧ (0.01 : ℚ) < rms))
    exact ⟨⟨hkey.1, hkey.2⟩, hkey.1, hkey.2⟩

/-- Every output envelope of a run is inside [0,1], provided the starting
envelope is and every input has non-negative elapsed time and decay. -/
lemma runDetector_envelope_mem :
    ∀ (inputs : List (ℚ × ℚ × BeatSettings)) (det : BeatDetector),
      0 ≤ det.envelope → det.envelope ≤ 1 →
      (∀ i ∈ inputs, 0 ≤ i.2.1 ∧ 0 ≤ i.2.2.decay) →
      ∀ out ∈ runDetector det inputs, 0 ≤ out.2 ∧ out.2 ≤ 1 := by
  intro inputs
  induction inputs with
  | nil => intro det _ _ _ out hout; simp [runDetector] at hout
  | cons i rest ih =>
    intro det h0 h1 hv out hout
    obtain ⟨rms, deltaTime, settings⟩ := i
    have hi := hv _ (List.mem_cons_self _ _)
    have hb := update_envelope_mem det rms deltaTime settings h0 h1 hi.1 hi.2
    simp only [runDetector, List.mem_cons] at hout
    rcases hout with hout | hout
    · rw [hout]; exact hb.2
    · exact ih _ hb.1.1 hb.1.2 (fun j hj => hv j (List.mem_cons_of_mem _ hj)) out hout

/-- C2 (amended): for every input sequence whose elapsed times are
non-negative and whose configured decay constants are non-negative, every
envelope the detector returns lies in [0,1]. -/
theorem beat_envelope_bounds (inputs : List (ℚ × ℚ × BeatSettings))
    (hvalid : ∀ i ∈ inputs, 0 ≤ i.2.1 ∧ 0 ≤ i.2.2.decay) :
    ∀ out ∈ runDetector beatInit inputs, 0 ≤ out.2 ∧ out.2 ≤ 1 :=
  runDetector_envelope_mem inputs beatInit (le_refl 0) zero_le_one hvalid

theorem beat_envelope_bounds_witness :
    (∀ i ∈ [((5 : ℚ), (1/60 : ℚ), stC1)], 0 ≤ i.2.1 ∧ 0 ≤ i.2.2.decay)
    ∧ ∀ out ∈ runDetector beatInit [((5 : ℚ), (1/60 : ℚ), stC1)], 0 ≤ out.2 ∧ out.2 ≤ 1 :=
  ⟨by norm_num [stC1], beat_envelope_bounds _ (by norm_num [stC1])⟩

/-- The history after the scenario beat is already sorted. -/
lemma sorted_hist5 :
    List.insertionSort (fun a b => a ≤ b) (List.replicate 119 (0 : ℚ) ++ [5])
      = List.replicate 119 0 ++ [5] := by
  apply List.Sorted.insertionSort_eq
  show List.Pairwise _ _
  rw [List.pairwise_append]
  refine ⟨List.pairwise_replicate.mpr (Or.inr le_rfl), by simp, ?_⟩
  intro a ha b hb
  rw [List.eq_of_mem_replicate ha, List.mem_singleton.mp hb]
  norm_num

lemma getMedian_hist5 : getMedian (List.replicate 119 (0 : ℚ) ++ [5]) = 0 := by
  have h59 : (List.replicate 119 (0 : ℚ) ++ [5]).getD 59 0 = 0 := by
    rw [List.getD_eq_getElem?_getD, List.getElem?_append_left (by simp),
      List.getElem?_replicate]
    norm_num
  have h60 : (List.replicate 119 (0 : ℚ) ++ [5]).getD 60 0 = 0 := by
    rw [List.getD_eq_getElem?_getD, List.getElem?_append_left (by simp),
      List.getElem?_replicate]
    norm_num
  have hlen : (List.replicate 119 (0 : ℚ) ++ [5]).length = 120 := by simp
  simp only [getMedian, sorted_hist5, hlen]
  rw [if_neg (by norm_num), show (120 : ℕ) / 2 = 60 from rfl,
    show (60 : ℕ) - 1 = 59 from rfl, h59, h60]
  norm_num

lemma getMAD_hist5 : getMAD (List.replicate 119 (0 : ℚ) ++ [5]) 0 = 0 := by
  unfold getMAD
  simp only [List.map_append, List.map_replicate, List.map_cons, List.map_nil,
    sub_zero, abs_zero]
  rw [show |(5 : ℚ)| = 5 from abs_of_nonneg (by norm_num)]
  exact getMedian_hist5

/-- The detector state right after the scenario beat. -/
def detAfterBeat : BeatDetector := ⟨List.replicate 119 (0 : ℚ) ++ [5], 1⟩

lemma detAfterBeat_threshold (settings : BeatSettings) :
    detAfterBeat.adaptiveThreshold settings = 0 := by
  show getMedian (List.replicate 119 (0 : ℚ) ++ [5])
      + settings.threshold
        * getMAD (List.replicate 119 (0 : ℚ) ++ [5])
            (getMedian (List.replicate 119 (0 : ℚ) ++ [5])) = 0
  rw [getMedian_hist5, getMAD_hist5]
  ring

/-- Settings with a negative decay constant (allowed by "any settings"). -/
def stNeg : BeatSettings := { enabled := true, attack := 1/100, decay := -1, threshold := 13/10 }

lemma update_detAfterBeat_neg : (detAfterBeat.update 0 1 stNeg).2 = (false, 2) := by
  unfold BeatDetector.update
  have hen : stNeg.enabled = true := rfl
  have hbeat : decide (detAfterBeat.adaptiveThreshold stNeg < 0 ∧ (0.01 : ℚ) < 0) = false :=
    decide_eq_false (by rw [detAfterBeat_threshold]; norm_num)
  have henv : detAfterBeat.envelope = 1 := rfl
  have hdec : stNeg.decay = -1 := rfl
  simp only [hen, Bool.not_true, Bool.false_eq_true, if_false, hbeat, henv, hdec]
  norm_num

/-- The input sequence of the counterexample: a beat, then a non-beat
update with elapsed time 1 and decay constant −1. -/
def cexInputs : List (ℚ × ℚ × BeatSettings) := [(5, 1/60, stC1), (0, 1, stNeg)]

/-- C2 (counterexample): the claim's validity conditions only constrain
loudness and elapsed time ("any settings"), yet with a negative configured
decay the second returned envelope is 2, above the claimed bound of 1. -/
theorem beat_envelope_exceeds_one_cex :
    (∀ i ∈ cexInputs, 0 ≤ i.2.1)
    ∧ ((runDetector beatInit cexInputs).getD 1 (false, 0)).2 = 2
    ∧ ¬ (((runDetector beatInit cexInputs).getD 1 (false, 0)).2 ≤ 1) := by
  have h1 : beatInit.update 5 (1/60) stC1 = (detAfterBeat, true, 1) := update_beatInit_five
  have hrun : runDetector beatInit cexInputs = [(true, 1), (false, 2)] := by
    simp only [cexInputs, runDetector, h1, update_detAfterBeat_neg]
  refine ⟨?_, ?_, ?_⟩
  · intro i hi
    simp only [cexInputs, List.mem_cons, List.mem_singleton] at hi
    rcases hi with hi | hi | hi
    · rw [hi]; norm_num
    · rw [hi]; norm_num
    · simp at hi
  · rw [hrun]; rfl
  · rw [hrun]; norm_num

/-- C5: for every compression mode and valid parameters (k > 0, gamma > 0),
the compression maps a raw magnitude of 0 to exactly 0 and of 255 to
exactly 1, and clamps every result into [0,1]. -/
theorem compress_endpoints_clamped (compression : Compression)
    (hk : 0 < compression.k) (hg : 0 < compression.gamma) :
    compressMagnitude 0 compression = 0
    ∧ compressMagnitude 255 compression = 1
    ∧ ∀ mag : ℝ, 0 ≤ compressMagnitude mag compression
        ∧ compressMagnitude mag compression ≤ 1 := by
  obtain ⟨mode, k, gamma⟩ := compression
  simp only at hk hg
  refine ⟨?_, ?_, ?_⟩
  · cases mode <;>
      simp [compressMagnitude, Real.zero_rpow (ne_of_gt hg), Real.logb_one]
  · have h255 : (255 : ℝ) / 255 = 1 := by norm_num
    have hlogb : Real.logb 10 (1 + k) ≠ 0 :=
      ne_of_gt (Real.logb_pos (by norm_num) (by linarith))
    cases mode <;>
      simp [compressMagnitude, h255, Real.one_rpow, div_self hlogb]
  · intro mag
    exact ⟨le_max_left _ _, max_le zero_le_one (min_le_left _ _)⟩

theorem compress_endpoints_clamped_witness :
    (0 : ℝ) < 2 ∧ (0 : ℝ) < 3
    ∧ (compressMagnitude 0 (Compression.mk CompressionMode.log 2 3) = 0
      ∧ compressMagnitude 255 (Compression.mk CompressionMode.log 2 3) = 1
      ∧ ∀ mag : ℝ, 0 ≤ compressMagnitude mag (Compression.mk CompressionMode.log 2 3)
          ∧ compressMagnitude mag (Compression.mk CompressionMode.log 2 3) ≤ 1) :=
  ⟨by norm_num, by norm_num,
    compress_endpoints_clamped (Compression.mk CompressionMode.log 2 3)
      (by norm_num) (by norm_num)⟩

/-- A cap-guarded push fold never grows the list beyond the cap. -/
lemma spawnFold_length_le {α β : Type} (cap : ℕ) (g : β → α) :
    ∀ (reqs : List β) (acc : List α), acc.length ≤ cap →
      (reqs.foldl (fun acc r => if cap ≤ acc.length then acc else acc ++ [g r]) acc).length
        ≤ cap := by
  intro reqs
  induction reqs with
  | nil => intro acc h; simpa using h
  | cons r rs ih =>
    intro acc h
    simp only [List.foldl_cons]
    by_cases hc : cap ≤ acc.length
    · rw [if_pos hc]; exact ih acc h
    · rw [if_neg hc]
      exact ih _ (by simp only [List.length_append, List.length_singleton]; omega)

/-- C7: starting within the caps, one frame keeps the particle population
at or below the configured count and the leaf population at or below 250;
dead particles (life at or below 0.01 after decay) are all gone at the end
of the frame, and a falling leaf is removed by the frame's update exactly
when its motion carries it past the soil level. -/
theorem population_caps_and_removal (count : ℕ) (decay w h soilLevel : ℚ)
    (ps : List Particle) (reqs : List SpawnReq) (leaves spawns : List Leaf)
    (hp : ps.length ≤ count) (hl : leaves.length ≤ LEAF_CAP) :
    (particleFrame count decay w h ps reqs).length ≤ count
    ∧ (∀ p ∈ particleFrame count decay w h ps reqs, (0.01 : ℚ) < p.life)
    ∧ (leafFrame soilLevel leaves spawns).length ≤ LEAF_CAP
    ∧ (∀ leaf : Leaf, leafUpdate soilLevel leaf = none
        ↔ (leaf.phase = LeafPhase.falling ∧ soilLevel < leaf.y + leaf.vy)) := by
  refine ⟨?_, ?_, ?_, ?_⟩
  · calc (particleFrame count decay w h ps reqs).length
        ≤ ((spawnPhase count w h ps reqs).map (particleStep decay)).length :=
          List.length_filter_le _ _
      _ = (spawnPhase count w h ps reqs).length := List.length_map _ _
      _ ≤ count := spawnFold_length_le count (mkParticle w h) reqs ps hp
  · intro p hp'
    have := List.of_mem_filter hp'
    exact of_decide_eq_true this
  · exact spawnFold_length_le LEAF_CAP (fun leaf => leaf) spawns _
      (le_trans (List.length_filterMap_le _ _) hl)
  · intro leaf
    cases hph : leaf.phase
    · constructor
      · intro hnone
        simp only [leafUpdate, hph] at hnone
        split_ifs at hnone
      · intro hcontra
        exact absurd hcontra.1 (by simp)
    · constructor
      · intro hnone
        simp only [leafUpdate, hph] at hnone
        refine ⟨rfl, ?_⟩
        by_contra hy
        rw [if_neg hy] at hnone
        exact Option.some_ne_none _ hnone
      · intro hcond
        simp only [leafUpdate, hph, if_pos hcond.2]

theorem population_caps_and_removal_witness :
    ([] : List Particle).length ≤ 5 ∧ ([] : List Leaf).length ≤ LEAF_CAP
    ∧ ((particleFrame 5 (1/2) 800 600 [] []).length ≤ 5
      ∧ (∀ p ∈ particleFrame 5 (1/2) 800 600 [] [], (0.01 : ℚ) < p.life)
      ∧ (leafFrame 300 [] []).length ≤ LEAF_CAP
      ∧ (∀ leaf : Leaf, leafUpdate 300 leaf = none
          ↔ (leaf.phase = LeafPhase.falling ∧ 300 < leaf.y + leaf.vy))) :=
  ⟨by simp, by simp,
    population_caps_and_removal 5 (1/2) 800 600 300 [] [] [] [] (by simp) (by simp)⟩

/-- The degenerate stop list of the counterexample: two stops, both at
position 1 (positions inside [0,1]). -/
def cexStops : List ColorStop := [ColorStop.mk "#000000" 1, ColorStop.mk "#ffffff" 1]

lemma sortStops_cex : sortStops cexStops = cexStops := by
  apply List.Sorted.insertionSort_eq
  show List.Pairwise _ _
  simp [cexStops]

/-- C6 (counterexample): with both stops at position 1, sampling at
position 1 hits the `position <= sorted[0].position` branch first and
returns the first sorted stop's color, not the last sorted stop's color
as the claim states. -/
theorem gradient_sample_one_cex :
    (∀ s ∈ cexStops, 0 ≤ s.position ∧ s.position ≤ 1)
    ∧ 2 ≤ cexStops.length
    ∧ ((sortStops cexStops).getLastD (ColorStop.mk fallbackWhite 0)).color = "#ffffff"
    ∧ getColorFromStops cexStops 1 = "#000000"
    ∧ ("#000000" : String) ≠ "#ffffff" := by
  refine ⟨?_, ?_, ?_, ?_, ?_⟩
  · intro s hs
    simp only [cexStops, List.mem_cons, List.not_mem_nil, or_false] at hs
    rcases hs with h | h <;> rw [h] <;> exact ⟨by norm_num, by norm_num⟩
  · simp [cexStops]
  · rw [sortStops_cex]; rfl
  · have hne0 : ¬ cexStops.length = 0 := by simp [cexStops]
    have hne1 : ¬ cexStops.length = 1 := by simp [cexStops]
    simp only [getColorFromStops, hne0, hne1, if_false, sortStops_cex]
    norm_num [cexStops]
  · simp

/-- The `headD` of a non-empty list is one of its elements. -/
lemma headD_mem {α : Type} (l : List α) (d : α) (h : l ≠ []) : l.headD d ∈ l := by
  cases l with
  | nil => exact absurd rfl h
  | cons a as => simp

/-- The `getLastD` of a non-empty list is one of its elements. -/
lemma getLastD_mem {α : Type} (l : List α) (d : α) (h : l ≠ []) : l.getLastD d ∈ l := by
  rw [List.getLastD_eq_getLast?, List.getLast?_eq_getLast l h]
  simp

lemma sortStops_sorted (stops : List ColorStop) :
    List.Sorted (fun a b : ColorStop => a.position ≤ b.position) (sortStops stops) := by
  haveI : IsTotal ColorStop (fun a b => a.position ≤ b.position) :=
    ⟨fun a b => le_total a.position b.position⟩
  haveI : IsTrans ColorStop (fun a b => a.position ≤ b.position) :=
    ⟨fun a b c hab hbc => le_trans hab hbc⟩
  exact List.sorted_insertionSort _ _

lemma head_le_getLast (l : List ColorStop) (d : ColorStop)
    (hs : List.Sorted (fun a b : ColorStop => a.position ≤ b.position) l) (h : l ≠ []) :
    (l.headD d).position ≤ (l.getLastD d).position := by
  cases l with
  | nil => exact absurd rfl h
  | cons a as =>
    simp only [List.headD_cons]
    have hmem : (a :: as).getLastD d ∈ a :: as := getLastD_mem _ d (by simp)
    rcases List.mem_cons.mp hmem with heq | hmem'
    · rw [heq]
    · exact List.rel_of_sorted_cons hs _ hmem'

/-- C6 (amended): for stop lists with positions in [0,1] — zero stops give
the white fallback; one stop gives that stop's color; with at least two
stops, sampling at 0 gives the first sorted stop's color, sampling at 1
gives the last sorted stop's color provided the smallest position is
below 1 (when every stop sits at position 1 the first stop's color is
returned instead), and any position outside the sorted [min,max] range
clamps to the nearest endpoint stop's color. -/
theorem gradient_sample_endpoints (stops : List ColorStop)
    (hpos : ∀ s ∈ stops, 0 ≤ s.position ∧ s.position ≤ 1) :
    (stops.length = 0 → ∀ pos : ℚ, getColorFromStops stops pos = fallbackWhite)
    ∧ (stops.length = 1 → ∀ pos : ℚ,
        getColorFromStops stops pos = (stops.headD (ColorStop.mk fallbackWhite 0)).color)
    ∧ (2 ≤ stops.length →
        (getColorFromStops stops 0
          = ((sortStops stops).headD (ColorStop.mk fallbackWhite 0)).color)
        ∧ (((sortStops stops).headD (ColorStop.mk fallbackWhite 0)).position < 1 →
            getColorFromStops stops 1
              = ((sortStops stops).getLastD (ColorStop.mk fallbackWhite 0)).color)
        ∧ (∀ pos : ℚ,
            pos ≤ ((sortStops stops).headD (ColorStop.mk fallbackWhite 0)).position →
            getColorFromStops stops pos
              = ((sortStops stops).headD (ColorStop.mk fallbackWhite 0)).color)
        ∧ (∀ pos : ℚ,
            ((sortStops stops).getLastD (ColorStop.mk fallbackWhite 0)).position < pos →
            getColorFromStops stops pos
              = ((sortStops stops).getLastD (ColorStop.mk fallbackWhite 0)).color)) := by
  refine ⟨?_, ?_, ?_⟩
  · intro h0 pos
    unfold getColorFromStops
    rw [if_pos h0]
  · intro h1 pos
    unfold getColorFromStops
    rw [if_neg (by omega), if_pos h1]
  · intro h2
    have hne : sortStops stops ≠ [] := by
      have hlen : (sortStops stops).length = stops.length := List.length_insertionSort _ _
      intro hemp
      rw [hemp] at hlen
      simp at hlen
      omega
    have hhead_mem : (sortStops stops).headD (ColorStop.mk fallbackWhite 0) ∈ stops :=
      (List.mem_insertionSort _).mp (headD_mem _ _ hne)
    have hlast_mem : (sortStops stops).getLastD (ColorStop.mk fallbackWhite 0) ∈ stops :=
      (List.mem_insertionSort _).mp (getLastD_mem _ _ hne)
    have hh := hpos _ hhead_mem
    have hl := hpos _ hlast_mem
    have hne0 : ¬ stops.length = 0 := by omega
    have hne1 : ¬ stops.length = 1 := by omega
    refine ⟨?_, ?_, ?_, ?_⟩
    · simp only [getColorFromStops, hne0, hne1, if_false]
      rw [if_pos hh.1]
    · intro hfirst
      simp only [getColorFromStops, hne0, hne1, if_false]
      rw [if_neg (not_le.mpr hfirst), if_pos hl.2]
    · intro pos hc
      simp only [getColorFromStops, hne0, hne1, if_false]
      rw [if_pos hc]
    · intro pos hd
      have hfl := head_le_getLast (sortStops stops) (ColorStop.mk fallbackWhite 0)
        (sortStops_sorted stops) hne
      simp only [getColorFromStops, hne0, hne1, if_false]
      rw [if_neg (not_le.mpr (lt_of_le_of_lt hfl hd)), if_pos (le_of_lt hd)]

theorem gradient_sample_endpoints_witness :
    (∀ s ∈ [ColorStop.mk "#000000" 0, ColorStop.mk "#ffffff" 1],
        0 ≤ s.position ∧ s.position ≤ 1)
    ∧ (2 ≤ ([ColorStop.mk "#000000" 0, ColorStop.mk "#ffffff" 1] : List ColorStop).length →
        (getColorFromStops [ColorStop.mk "#000000" 0, ColorStop.mk "#ffffff" 1] 0
          = ((sortStops [ColorStop.mk "#000000" 0, ColorStop.mk "#ffffff" 1]).headD
              (ColorStop.mk fallbackWhite 0)).color)
        ∧ (((sortStops [ColorStop.mk "#000000" 0, ColorStop.mk "#ffffff" 1]).headD
              (ColorStop.mk fallbackWhite 0)).position < 1 →
            getColorFromStops [ColorStop.mk "#000000" 0, ColorStop.mk "#ffffff" 1] 1
              = ((sortStops [ColorStop.mk "#000000" 0, ColorStop.mk "#ffffff" 1]).getLastD
                  (ColorStop.mk fallbackWhite 0)).color)
        ∧ (∀ pos : ℚ,
            pos ≤ ((sortStops [ColorStop.mk "#000000" 0, ColorStop.mk "#ffffff" 1]).headD
                (ColorStop.mk fallbackWhite 0)).position →
            getColorFromStops [ColorStop.mk "#000000" 0, ColorStop.mk "#ffffff" 1] pos
              = ((sortStops [ColorStop.mk "#000000" 0, ColorStop.mk "#ffffff" 1]).headD
                  (ColorStop.mk fallbackWhite 0)).color)
        ∧ (∀ pos : ℚ,
            ((sortStops [ColorStop.mk "#000000" 0, ColorStop.mk "#ffffff" 1]).getLastD
                (ColorStop.mk fallbackWhite 0)).position < pos →
            getColorFromStops [ColorStop.mk "#000000" 0, ColorStop.mk "#ffffff" 1] pos
              = ((sortStops [ColorStop.mk "#000000" 0, ColorStop.mk "#ffffff" 1]).getLastD
                  (ColorStop.mk fallbackWhite 0)).color)) :=
  ⟨by intro s hs
      simp only [List.mem_cons, List.not_mem_nil, or_false] at hs
      rcases hs with h | h <;> rw [h] <;> exact ⟨by norm_num, by norm_num⟩,
    (gradient_sample_endpoints [ColorStop.mk "#000000" 0, ColorStop.mk "#ffffff" 1]
      (by intro s hs
          simp only [List.mem_cons, List.not_mem_nil, or_false] at hs
          rcases hs with h | h <;> rw [h] <;> exact ⟨by norm_num, by norm_num⟩)).2.2⟩
